import Mathlib

set_option linter.unusedVariables false

/-!
Shallow embedding of the ctx-miner session-memory orchestration code.

Embedded source:
* `examples/chatbot_with_memory.py` — class `MemoryChatbot`
  (`get_relevant_context`, `generate_response`, `save_conversation_turn`,
  `chat`, `end_session`);
* `ctx_miner/core/context_generator.py` — class `ContextGenerator`
  (`format_context_for_llm`, `get_context_for_query`).

Python dictionaries returned by the external search engine are modelled as
records with `Option String` fields (a missing key is `none`); the code only
reads them through `dict.get(key, "")`, modelled as `Option.getD ""`.
The external engine (`miner.search_context`) is modelled as a function from
query and limit to `Except Unit (List SearchResult)`: an `Except.error`
models the call raising an exception.  Submissions to the engine
(`miner.add_episode`) are recorded in the state as the list of message lists
that were packaged into episodes, in submission order.
-/

/-- A conversational turn (`CtxMinerMessage(role=..., content=...)`). -/
structure CtxMinerMessage where
  role : String
  content : String
  deriving DecidableEq, Repr

/-- A raw search result returned by the external engine.  `fact` and
`created_at` model the `"fact"` / `"created_at"` dictionary keys; `none`
models an absent key. -/
structure SearchResult where
  fact : Option String
  created_at : Option String
  deriving DecidableEq, Repr

/-- The external search engine: `engine query limit` is the outcome of
`await miner.search_context(query=query, limit=limit)`; `Except.error ()`
models the call raising. -/
def Engine : Type := String → Nat → Except Unit (List SearchResult)

/-- Python's `str.strip()`: remove leading and trailing whitespace.
(Defined structurally over the character list so that it is
kernel-computable, unlike `String.trim`.) -/
def pyStrip (s : String) : String :=
  ⟨((s.data.dropWhile Char.isWhitespace).reverse.dropWhile
      Char.isWhitespace).reverse⟩

/-- The dedup loop of `MemoryChatbot.get_relevant_context` (lines 51-55):
for each result, `fact = result.get("fact", "").strip()`; a fact is kept
when it is non-empty and not yet in `seen_facts`, which it then joins. -/
def dedupLoop : List SearchResult → List String → List String
  | [], _ => []
  | r :: rs, seen =>
    let fact := pyStrip (r.fact.getD "")
    if fact ≠ "" ∧ fact ∉ seen then fact :: dedupLoop rs (fact :: seen)
    else dedupLoop rs seen

/-- Embeds `MemoryChatbot.get_relevant_context(user_input, max_contexts=5)`:
requests `max_contexts * 2` results from the engine, returns `""` when the
engine raises (the `except` branch) or returns no results, otherwise
renders the deduplicated facts of the first `max_contexts` results as
`- fact` lines under a header.  Returns `""` when no fact survives. -/
def get_relevant_context (engine : Engine) (user_input : String)
    (max_contexts : Nat := 5) : String :=
  match engine user_input (max_contexts * 2) with
  | Except.error _ => ""
  | Except.ok results =>
    if results.isEmpty then ""
    else
      let context_parts := (dedupLoop (results.take max_contexts) []).map
        (fun fact => "- " ++ fact)
      if context_parts.isEmpty then ""
      else "Relevant context from past conversations:\n" ++
        String.intercalate "\n" context_parts

/-- Embeds `MemoryChatbot.generate_response`: the demo implementation logs the
assembled prompt and returns the simulated response string, which depends
only on `user_input`. -/
def generate_response (user_input : String) (context : String) : String :=
  "[Simulated response based on context about: " ++ user_input ++ "]"

/-- State of a `MemoryChatbot`: `current_session` is the turn buffer;
`episodes` records the message lists submitted to the engine via
`miner.add_episode`, in submission order. -/
structure ChatState where
  current_session : List CtxMinerMessage
  episodes : List (List CtxMinerMessage)
  deriving DecidableEq, Repr

/-- Fresh chatbot state (`__init__`: `current_session = []`). -/
def initState : ChatState := ⟨[], []⟩

/-- Embeds `MemoryChatbot.save_conversation_turn`: when at least one exchange
(2 messages) is buffered, packages the whole `current_session` into an
episode and submits it; otherwise does nothing.  The buffer itself is not
touched. -/
def save_conversation_turn (s : ChatState) : ChatState :=
  if 2 ≤ s.current_session.length then
    { s with episodes := s.episodes ++ [s.current_session] }
  else s

/-- The flush condition of `MemoryChatbot.chat` (line 145):
`len(self.current_session) >= 4 and len(self.current_session) % 4 == 0`. -/
def flush_due (n : Nat) : Bool :=
  decide (4 ≤ n) && decide (n % 4 = 0)

/-- Embeds `MemoryChatbot.chat(user_input)`: appends the user message, retrieves
context (default `max_contexts = 5`), generates the response, appends the
assistant message, and calls `save_conversation_turn` when the flush
condition holds on the buffer length. -/
def chat (engine : Engine) (s : ChatState) (user_input : String) : ChatState :=
  let s1 : ChatState :=
    { s with current_session :=
        s.current_session ++ [⟨"user", user_input⟩] }
  let context := get_relevant_context engine user_input 5
  let response := generate_response user_input context
  let s2 : ChatState :=
    { s1 with current_session :=
        s1.current_session ++ [⟨"assistant", response⟩] }
  if flush_due s2.current_session.length then save_conversation_turn s2
  else s2

/-- Embeds `MemoryChatbot.end_session`: when the buffer is non-empty, calls
`save_conversation_turn` and then clears the buffer. -/
def end_session (s : ChatState) : ChatState :=
  if s.current_session.isEmpty then s
  else
    let s1 := save_conversation_turn s
    { s1 with current_session := [] }

/-- Run a sequence of `chat` calls from a fresh chatbot. -/
def chatMany (engine : Engine) (inputs : List String) : ChatState :=
  inputs.foldl (chat engine) initState

/-- The user message appended by `chat`. -/
def uMsg (u : String) : CtxMinerMessage := ⟨"user", u⟩

/-- The assistant message appended by `chat` for input `u`. -/
def aMsg (engine : Engine) (u : String) : CtxMinerMessage :=
  ⟨"assistant", generate_response u (get_relevant_context engine u 5)⟩

/-- The loop of `ContextGenerator.format_context_for_llm` (lines 31-38):
1-based enumeration over the first `max_contexts` results, a numbered line
`\n{i}. {fact}` per result, plus an indented `   (From: {created_at})` line
when `created_at` is truthy (non-empty). -/
def formatLoop : Nat → List SearchResult → List String
  | _, [] => []
  | i, r :: rs =>
    let fact := r.fact.getD ""
    let created_at := r.created_at.getD ""
    ("\n" ++ toString i ++ ". " ++ fact) ::
      ((if created_at ≠ "" then ["   (From: " ++ created_at ++ ")"] else []) ++
        formatLoop (i + 1) rs)

/-- Embeds `ContextGenerator.format_context_for_llm(search_results, max_contexts=5)`:
the sentinel for an empty list, otherwise the header and the loop-generated
parts joined with `"\n"`. -/
def format_context_for_llm (search_results : List SearchResult)
    (max_contexts : Nat := 5) : String :=
  if search_results.isEmpty then "No relevant context found."
  else
    String.intercalate "\n"
      ("Relevant conversation context:" ::
        formatLoop 1 (search_results.take max_contexts))

/-- Embeds `ContextGenerator.get_context_for_query(query, limit=10, format_for_llm)`:
delegates to the engine with `limit`; there is no `try`/`except`, so an
engine failure propagates to the caller (`Except.error`).  On success,
either formats the results (default `max_contexts = 5`) or returns the raw
`str(results)`. -/
def get_context_for_query (engine : Engine) (query : String)
    (limit : Nat := 10) (fmt : Bool := true) : Except Unit String :=
  match engine query limit with
  | Except.error e => Except.error e
  | Except.ok results =>
    Except.ok (if fmt then format_context_for_llm results 5
      else toString (repr results))

/-! ### Specification-side definitions

These follow the spec's words and are compared with the code-derived
definitions above in refinement theorems. -/

/-- Modelled from the spec: "first occurrence in rank order wins" —
keep the first occurrence of each element, skipping elements already seen. -/
def keepFirstAux : List String → List String → List String
  | [], _ => []
  | x :: xs, seen =>
    if x ∈ seen then keepFirstAux xs seen
    else x :: keepFirstAux xs (x :: seen)

/-- Modelled from the spec: deduplication keeping the first occurrence of
each element, preserving order. -/
def keepFirst (l : List String) : List String := keepFirstAux l []

/-- Modelled from the spec: the rendering of one formatted entry — a
1-based numbered line with the fact text, followed by an indented
provenance line exactly when the (truthiness-normalised) `created_at` is
non-empty. -/
def entryParts (p : Nat × SearchResult) : List String :=
  ("\n" ++ toString p.1 ++ ". " ++ p.2.fact.getD "") ::
    (if p.2.created_at.getD "" ≠ "" then
      ["   (From: " ++ p.2.created_at.getD "" ++ ")"] else [])

/-- A formatted part is a numbered block head iff it starts with a newline
character (numbered lines are the only parts that do). -/
def isNumberedLine (s : String) : Bool := s.data.head? == some '\n'

/-- The trimmed fact text of a search result, as the dedup loop reads it. -/
def trimmedFact (r : SearchResult) : String := pyStrip (r.fact.getD "")

/-! ### Concrete instruments used by counterexamples and witnesses -/

/-- An engine that always succeeds with no results. -/
def noResults : Engine := fun _ _ => Except.ok []

/-- An engine whose search call always raises. -/
def failEngine : Engine := fun _ _ => Except.error ()

/-- A search result with the given fact text and no `created_at`. -/
def sr (f : String) : SearchResult := ⟨some f, none⟩

/-- Six engine results among which `"a"` is duplicated: five distinct
non-empty facts exist. -/
def sixResults : List SearchResult :=
  [sr "a", sr "a", sr "b", sr "c", sr "d", sr "e"]

/-! ### Helper lemmas -/

theorem flush_due_iff (n : Nat) : flush_due n = true ↔ 4 ≤ n ∧ n % 4 = 0 := by
  simp [flush_due]

theorem save_session_eq (s : ChatState) :
    (save_conversation_turn s).current_session = s.current_session := by
  unfold save_conversation_turn
  split <;> rfl

theorem save_episodes_of_two_le (s : ChatState)
    (h : 2 ≤ s.current_session.length) :
    (save_conversation_turn s).episodes = s.episodes ++ [s.current_session] := by
  unfold save_conversation_turn
  rw [if_pos h]

theorem save_episodes_of_lt_two (s : ChatState)
    (h : s.current_session.length < 2) :
    (save_conversation_turn s).episodes = s.episodes := by
  unfold save_conversation_turn
  rw [if_neg (by omega)]

theorem chat_session_eq (engine : Engine) (s : ChatState) (u : String) :
    (chat engine s u).current_session =
      s.current_session ++ [uMsg u, aMsg engine u] := by
  unfold chat
  dsimp only
  split
  · rw [save_session_eq]
    simp [uMsg, aMsg]
  · simp [uMsg, aMsg]

theorem chat_episodes_eq (engine : Engine) (s : ChatState) (u : String) :
    (chat engine s u).episodes =
      if flush_due (s.current_session.length + 2) = true then
        s.episodes ++ [s.current_session ++ [uMsg u, aMsg engine u]]
      else s.episodes := by
  unfold chat
  dsimp only
  have hlen : ((s.current_session ++ [(⟨"user", u⟩ : CtxMinerMessage)]) ++
      [(⟨"assistant", generate_response u (get_relevant_context engine u 5)⟩ :
        CtxMinerMessage)]).length = s.current_session.length + 2 := by
    simp
  rw [hlen]
  by_cases h : flush_due (s.current_session.length + 2) = true
  · rw [if_pos h, if_pos h]
    rw [save_episodes_of_two_le]
    · dsimp only
      simp [uMsg, aMsg]
    · dsimp only
      rw [hlen]
      have h4 : 4 ≤ s.current_session.length + 2 := ((flush_due_iff _).mp h).1
      omega
  · rw [if_neg h, if_neg h]

theorem end_session_clears (s : ChatState) :
    (end_session s).current_session = [] := by
  unfold end_session
  dsimp only
  split
  · next h =>
    simpa using h
  · rfl

theorem end_session_episodes_of_two_le (s : ChatState)
    (h : 2 ≤ s.current_session.length) :
    (end_session s).episodes = s.episodes ++ [s.current_session] := by
  unfold end_session
  have hne : s.current_session.isEmpty = false := by
    cases hcs : s.current_session with
    | nil => rw [hcs] at h; simp at h
    | cons a l => simp
  rw [if_neg (by simp [hne])]
  exact save_episodes_of_two_le s h

theorem dedupLoop_eq_keepFirstAux (rs : List SearchResult) :
    ∀ seen, dedupLoop rs seen =
      keepFirstAux ((rs.map trimmedFact).filter (fun f => f ≠ "")) seen := by
  induction rs with
  | nil => intro seen; rfl
  | cons r rs ih =>
    intro seen
    simp only [dedupLoop, List.map_cons, List.filter_cons, trimmedFact]
    by_cases h0 : pyStrip (r.fact.getD "") = ""
    · rw [if_neg (by simp [h0]), if_neg (by simp [h0])]
      exact ih seen
    · by_cases h1 : pyStrip (r.fact.getD "") ∈ seen
      · rw [if_neg (by tauto), if_pos (by simp [h0])]
        simp only [keepFirstAux]
        rw [if_pos h1]
        exact ih seen
      · rw [if_pos ⟨h0, h1⟩, if_pos (by simp [h0])]
        simp only [keepFirstAux]
        rw [if_neg h1]
        rw [ih (pyStrip (r.fact.getD "") :: seen)]

theorem keepFirstAux_mem (l : List String) :
    ∀ seen x, x ∈ keepFirstAux l seen → x ∈ l ∧ x ∉ seen := by
  induction l with
  | nil => intro seen x hx; simp [keepFirstAux] at hx
  | cons a l ih =>
    intro seen x hx
    simp only [keepFirstAux] at hx
    by_cases ha : a ∈ seen
    · rw [if_pos ha] at hx
      have := ih seen x hx
      exact ⟨List.mem_cons_of_mem a this.1, this.2⟩
    · rw [if_neg ha] at hx
      rcases List.mem_cons.mp hx with hxa | hxr
      · rw [hxa]
        exact ⟨List.mem_cons_self a l, ha⟩
      · have := ih (a :: seen) x hxr
        refine ⟨List.mem_cons_of_mem a this.1, fun hxs => this.2 ?_⟩
        exact List.mem_cons_of_mem a hxs

theorem keepFirstAux_nodup (l : List String) :
    ∀ seen, (keepFirstAux l seen).Nodup := by
  induction l with
  | nil => intro seen; simp [keepFirstAux]
  | cons a l ih =>
    intro seen
    simp only [keepFirstAux]
    by_cases ha : a ∈ seen
    · rw [if_pos ha]; exact ih seen
    · rw [if_neg ha]
      refine List.nodup_cons.mpr ⟨fun hmem => ?_, ih (a :: seen)⟩
      exact (keepFirstAux_mem l (a :: seen) a hmem).2 (List.mem_cons_self a seen)

theorem keepFirstAux_sublist (l : List String) :
    ∀ seen, List.Sublist (keepFirstAux l seen) l := by
  induction l with
  | nil => intro seen; simp [keepFirstAux]
  | cons a l ih =>
    intro seen
    simp only [keepFirstAux]
    by_cases ha : a ∈ seen
    · rw [if_pos ha]
      exact List.Sublist.cons a (ih seen)
    · rw [if_neg ha]
      exact List.Sublist.cons₂ a (ih (a :: seen))

theorem dedupLoop_length_le (rs : List SearchResult) :
    ∀ seen, (dedupLoop rs seen).length ≤ rs.length := by
  induction rs with
  | nil => intro seen; simp [dedupLoop]
  | cons r rs ih =>
    intro seen
    simp only [dedupLoop]
    split
    · simpa using Nat.succ_le_succ (ih _)
    · exact Nat.le_succ_of_le (ih seen)

theorem formatLoop_eq_bind (l : List SearchResult) :
    ∀ i, formatLoop i l = (List.enumFrom i l).flatMap entryParts := by
  induction l with
  | nil => intro i; rfl
  | cons r rs ih =>
    intro i
    simp only [formatLoop, List.enumFrom, List.flatMap_cons, ih (i + 1)]
    simp [entryParts]

theorem isNumberedLine_nl (x : String) : isNumberedLine ("\n" ++ x) = true := by
  simp only [isNumberedLine, String.data_append]
  rfl

theorem isNumberedLine_prov (c : String) :
    isNumberedLine ("   (From: " ++ c ++ ")") = false := by
  simp only [isNumberedLine, String.data_append]
  rfl

theorem countP_formatLoop (l : List SearchResult) :
    ∀ i, (formatLoop i l).countP isNumberedLine = l.length := by
  induction l with
  | nil => intro i; rfl
  | cons r rs ih =>
    intro i
    simp only [formatLoop]
    rw [List.countP_cons]
    have hnl : isNumberedLine ("\n" ++ toString i ++ ". " ++ r.fact.getD "") =
        true := by
      have : "\n" ++ toString i ++ ". " ++ r.fact.getD "" =
          "\n" ++ (toString i ++ (". " ++ r.fact.getD "")) := by
        simp [String.ext_iff, String.data_append, List.append_assoc]
      rw [this]
      exact isNumberedLine_nl _
    rw [List.countP_append, hnl]
    have hopt : List.countP isNumberedLine
        (if r.created_at.getD "" ≠ "" then
          ["   (From: " ++ r.created_at.getD "" ++ ")"] else []) = 0 := by
      split
      · simp [List.countP_cons, isNumberedLine_prov]
      · rfl
    rw [hopt, ih (i + 1)]
    simp

theorem chatMany_append_one (engine : Engine) (us : List String) (u : String) :
    chatMany engine (us ++ [u]) = chat engine (chatMany engine us) u := by
  simp [chatMany, List.foldl_append]

theorem chatMany_lens (engine : Engine) (us : List String) :
    (chatMany engine us).current_session.length = 2 * us.length ∧
    (chatMany engine us).episodes.length = us.length / 2 := by
  induction us using List.reverseRecOn with
  | nil => exact ⟨rfl, rfl⟩
  | append_singleton us u ih =>
    obtain ⟨h1, h2⟩ := ih
    rw [chatMany_append_one]
    refine ⟨?_, ?_⟩
    · rw [chat_session_eq]
      simp [h1]
      omega
    · rw [chat_episodes_eq, h1]
      by_cases h : flush_due (2 * us.length + 2) = true
      · rw [if_pos h]
        have hc := (flush_due_iff _).mp h
        simp only [List.length_append, List.length_cons, List.length_nil, h2]
        omega
      · rw [if_neg h]
        have hc : ¬(4 ≤ 2 * us.length + 2 ∧ (2 * us.length + 2) % 4 = 0) :=
          fun hcc => h ((flush_due_iff _).mpr hcc)
        simp only [h2, List.length_append, List.length_cons, List.length_nil]
        omega

/-! ### Claims -/

/-- C5 (confirmed): the flush condition evaluated after an assistant-turn
append holds exactly when the buffer length is at least 4 and a multiple
of 4; 3 buffered turns never trigger a flush, 4 do; over any run the
buffer holds 2 turns per chat call and exactly one flush happens per two
chat calls (so 4 appended turns yield exactly one flush before a 5th
append, and sequences shorter than 2 exchanges yield zero). -/
theorem c5_flush_policy (engine : Engine) (us : List String) :
    flush_due 3 = false ∧ flush_due 4 = true ∧
    (∀ n : Nat, flush_due n = true ↔ 4 ≤ n ∧ n % 4 = 0) ∧
    (chatMany engine us).current_session.length = 2 * us.length ∧
    (chatMany engine us).episodes.length = us.length / 2 :=
  ⟨rfl, rfl, flush_due_iff, (chatMany_lens engine us).1, (chatMany_lens engine us).2⟩

/-- C6 (confirmed): the retriever's dedup equals "discard results whose
trimmed fact is empty, then keep the first occurrence of each trimmed fact
in rank order"; the output has no duplicates, no empty fact, and is a
subsequence of the trimmed facts in the engine's original order (no local
re-ranking). -/
theorem c6_dedup_first_wins (rs : List SearchResult) :
    dedupLoop rs [] =
      keepFirst ((rs.map trimmedFact).filter (fun f => f ≠ "")) ∧
    (dedupLoop rs []).Nodup ∧
    "" ∉ dedupLoop rs [] ∧
    List.Sublist (dedupLoop rs []) (rs.map trimmedFact) := by
  have heq := dedupLoop_eq_keepFirstAux rs []
  refine ⟨heq, ?_, ?_, ?_⟩
  · rw [heq]
    exact keepFirstAux_nodup _ []
  · rw [heq]
    intro hmem
    have hm := (keepFirstAux_mem _ [] "" hmem).1
    have := List.of_mem_filter hm
    simp at this
  · rw [heq]
    exact (keepFirstAux_sublist _ []).trans (List.filter_sublist _)

/-- C9 (confirmed): the buffer is append-only — a chat turn extends the
buffer with exactly the user message followed by the assistant message,
leaving every earlier entry in place, and a flush/persist call leaves the
buffer contents entirely unchanged. -/
theorem c9_append_only (engine : Engine) (s : ChatState) (u : String) :
    (chat engine s u).current_session =
      s.current_session ++ [uMsg u, aMsg engine u] ∧
    (save_conversation_turn s).current_session = s.current_session :=
  ⟨chat_session_eq engine s u, save_session_eq s⟩

/-- C10 (confirmed): for a non-empty result list the formatter emits
`min max_items (length of the list)` numbered blocks — the count depends
only on the list length, never on the facts' contents (missing or empty
facts still get a numbered block; the formatter performs no empty-fact
filtering). -/
theorem c10_blocks_from_length (rs : List SearchResult) (n : Nat)
    (h : rs ≠ []) :
    (formatLoop 1 (rs.take n)).countP isNumberedLine = min n rs.length ∧
    format_context_for_llm rs n =
      String.intercalate "\n"
        ("Relevant conversation context:" :: formatLoop 1 (rs.take n)) := by
  have hne : rs.isEmpty = false := by
    cases rs with
    | nil => exact absurd rfl h
    | cons a l => rfl
  refine ⟨?_, ?_⟩
  · rw [countP_formatLoop]
    exact List.length_take n rs
  · unfold format_context_for_llm
    rw [if_neg (by simp [hne])]

/-- C10 witness: a single result with missing fact and missing
`created_at` still yields exactly one numbered block. -/
theorem c10_witness :
    ([(⟨none, none⟩ : SearchResult)] ≠ []) ∧
    ((formatLoop 1 (([(⟨none, none⟩ : SearchResult)]).take 1)).countP
        isNumberedLine = min 1 ([(⟨none, none⟩ : SearchResult)]).length ∧
     format_context_for_llm [(⟨none, none⟩ : SearchResult)] 1 =
       String.intercalate "\n"
         ("Relevant conversation context:" ::
           formatLoop 1 (([(⟨none, none⟩ : SearchResult)]).take 1))) :=
  ⟨by decide, c10_blocks_from_length [⟨none, none⟩] 1 (by decide)⟩

/-- C3 counterexample: a session holding a single buffered turn is cleared
by `end_session` without any flush — the turn is silently dropped
(`save_conversation_turn` requires at least 2 buffered messages), contrary
to the claim that `end()` flushes "any number of unpersisted buffered
turns (including a single turn)". -/
theorem c3_counterexample :
    (end_session ⟨[⟨"user", "hi"⟩], []⟩).episodes = [] ∧
    (end_session ⟨[⟨"user", "hi"⟩], []⟩).current_session = [] := by
  exact ⟨by decide, by decide⟩

/-- C3 (corrected): for every session holding at least 2 buffered turns
(one exchange), `end_session` performs exactly one flush packaging the
whole buffer before clearing it; a session holding a single buffered turn
is cleared without a flush and that turn is dropped. -/
theorem c3_end_flushes (s : ChatState) (h : 2 ≤ s.current_session.length) :
    (end_session s).episodes = s.episodes ++ [s.current_session] ∧
    (end_session s).current_session = [] :=
  ⟨end_session_episodes_of_two_le s h, end_session_clears s⟩

/-- C3 witness: ending a session holding exactly one exchange flushes it. -/
theorem c3_witness :
    2 ≤ (ChatState.mk [⟨"user", "a"⟩, ⟨"assistant", "b"⟩]
        []).current_session.length ∧
    ((end_session (ChatState.mk [⟨"user", "a"⟩, ⟨"assistant", "b"⟩]
          [])).episodes =
        (ChatState.mk [⟨"user", "a"⟩, ⟨"assistant", "b"⟩] []).episodes ++
          [(ChatState.mk [⟨"user", "a"⟩, ⟨"assistant", "b"⟩]
              []).current_session] ∧
     (end_session (ChatState.mk [⟨"user", "a"⟩, ⟨"assistant", "b"⟩]
          [])).current_session = []) :=
  ⟨by decide, c3_end_flushes _ (by decide)⟩

/-- C2 counterexample: after `end_session`, a further chat call does not
raise any error and mutates the buffer (it grows from the cleared empty
buffer to 2 messages), contrary to the claim that it raises a `StateError`
and leaves the buffer unmutated. -/
theorem c2_counterexample :
    (chat noResults (end_session (chatMany noResults ["hi"]))
        "again").current_session ≠
      (end_session (chatMany noResults ["hi"])).current_session ∧
    (chat noResults (end_session (chatMany noResults ["hi"]))
        "again").current_session.length = 2 := by
  exact ⟨by decide, by decide⟩

/-- C2 (corrected): there is no `ENDED` state — after `end_session` the
buffer is empty and a further chat call is accepted normally, appending a
fresh user/assistant pair (and triggering no flush). -/
theorem c2_no_ended_state (engine : Engine) (s : ChatState) (u : String) :
    (end_session s).current_session = [] ∧
    (chat engine (end_session s) u).current_session =
      [uMsg u, aMsg engine u] ∧
    (chat engine (end_session s) u).episodes = (end_session s).episodes := by
  refine ⟨end_session_clears s, ?_, ?_⟩
  · rw [chat_session_eq, end_session_clears]
    rfl
  · rw [chat_episodes_eq, end_session_clears]
    rw [if_neg (by decide)]

/-- C1 counterexample: in the U1,A1,U2,A2,U3,A3 scenario the flush after
A2 submits the 4-turn buffer, but the flush performed by `end_session`
resubmits the previously flushed turns: the second episode has all 6 turns
(not just U3,A3) and contains the already-flushed U1 — there is no
`last_flush_index` advancing. -/
theorem c1_counterexample :
    (end_session (chatMany noResults ["u1", "u2", "u3"])).episodes.map
        List.length = [4, 6] ∧
    uMsg "u1" ∈
      ((end_session (chatMany noResults ["u1", "u2", "u3"])).episodes.getD
        1 []) := by
  exact ⟨by decide, by decide⟩

/-- C1 (corrected): the flush after A2 packages exactly U1,A1,U2,A2 —
which is the *entire* buffer, as every flush is; U3/A3 stay unflushed and
trigger no flush until `end()`; but there is no flush boundary index: the
flush at `end()` packages the whole 6-turn buffer again, resubmitting the
previously flushed 4 turns as a prefix. -/
theorem c1_flush_packages_whole_buffer (engine : Engine) (u1 u2 u3 : String) :
    (chatMany engine [u1, u2]).current_session =
      [uMsg u1, aMsg engine u1, uMsg u2, aMsg engine u2] ∧
    (chatMany engine [u1, u2]).episodes =
      [[uMsg u1, aMsg engine u1, uMsg u2, aMsg engine u2]] ∧
    (chatMany engine [u1, u2, u3]).current_session =
      [uMsg u1, aMsg engine u1, uMsg u2, aMsg engine u2,
        uMsg u3, aMsg engine u3] ∧
    (chatMany engine [u1, u2, u3]).episodes =
      (chatMany engine [u1, u2]).episodes ∧
    (end_session (chatMany engine [u1, u2, u3])).episodes =
      [[uMsg u1, aMsg engine u1, uMsg u2, aMsg engine u2],
       [uMsg u1, aMsg engine u1, uMsg u2, aMsg engine u2,
         uMsg u3, aMsg engine u3]] := by
  have hc2 : chatMany engine [u1, u2] =
      chat engine (chat engine initState u1) u2 := by
    simp only [chatMany, List.foldl_cons, List.foldl_nil]
  have hc3 : chatMany engine [u1, u2, u3] =
      chat engine (chat engine (chat engine initState u1) u2) u3 := by
    simp only [chatMany, List.foldl_cons, List.foldl_nil]
  have h1s : (chat engine initState u1).current_session =
      [uMsg u1, aMsg engine u1] := by
    rw [chat_session_eq]
    rfl
  have h1e : (chat engine initState u1).episodes = [] := by
    rw [chat_episodes_eq]
    rw [if_neg (by simp [flush_due, initState])]
    rfl
  have h2s : (chat engine (chat engine initState u1) u2).current_session =
      [uMsg u1, aMsg engine u1, uMsg u2, aMsg engine u2] := by
    rw [chat_session_eq, h1s]
    rfl
  have h2e : (chat engine (chat engine initState u1) u2).episodes =
      [[uMsg u1, aMsg engine u1, uMsg u2, aMsg engine u2]] := by
    rw [chat_episodes_eq, h1s, h1e]
    rw [if_pos (by simp [flush_due])]
    rfl
  have h3s : (chat engine (chat engine (chat engine initState u1) u2)
      u3).current_session =
      [uMsg u1, aMsg engine u1, uMsg u2, aMsg engine u2,
        uMsg u3, aMsg engine u3] := by
    rw [chat_session_eq, h2s]
    rfl
  have h3e : (chat engine (chat engine (chat engine initState u1) u2)
      u3).episodes =
      [[uMsg u1, aMsg engine u1, uMsg u2, aMsg engine u2]] := by
    rw [chat_episodes_eq, h2s, h2e]
    rw [if_neg (by simp [flush_due])]
  refine ⟨by rw [hc2, h2s], by rw [hc2, h2e], by rw [hc3, h3s],
    by rw [hc3, h3e, hc2, h2e], ?_⟩
  rw [hc3, end_session_episodes_of_two_le _ (by rw [h3s]; simp), h3e, h3s]
  rfl

/-- C4 counterexample: with `limit = 3` and six engine results
`a,a,b,c,d,e` (five distinct non-empty facts, so at least 4 unique facts
exist among the 6), the retriever returns only the 2 unique facts found in
the first 3 results — not `min(limit, #distinct) = 3` — because the dedup
loop only scans `results[:limit]`, never the extra `2×limit` fetch. -/
theorem c4_counterexample :
    dedupLoop (sixResults.take 3) [] = ["a", "b"] ∧
    (((sixResults.map trimmedFact).filter (fun f => f ≠ "")).dedup).length
      = 5 ∧
    get_relevant_context (fun _ _ => Except.ok sixResults) "refund" 3 =
      "Relevant context from past conversations:\n- a\n- b" := by
  exact ⟨by decide, by decide, by decide⟩

/-- Helper for C4: the successful-search output of
`get_relevant_context` only depends on the first `max_contexts` results. -/
theorem grc_ok_determined_by_take (q : String) (m : Nat)
    (rs rs' : List SearchResult) (h : rs.take m = rs'.take m) :
    get_relevant_context (fun _ _ => Except.ok rs) q m =
      get_relevant_context (fun _ _ => Except.ok rs') q m := by
  unfold get_relevant_context
  dsimp only
  cases rs with
  | nil =>
    cases rs' with
    | nil => rfl
    | cons b l' =>
      have hm : m = 0 := by
        cases m with
        | zero => rfl
        | succ k => simp [List.take] at h
      subst hm
      simp [dedupLoop]
  | cons a l =>
    cases rs' with
    | nil =>
      have hm : m = 0 := by
        cases m with
        | zero => rfl
        | succ k => simp [List.take] at h
      subst hm
      simp [dedupLoop]
    | cons b l' =>
      simp only [List.isEmpty_cons, if_false]
      rw [h]

/-- C4 (corrected): the retriever does request `2×limit` results from the
engine (its output depends only on the engine's answer at `limit * 2`),
but it deduplicates only the first `limit` of them: the output is
determined by `results.take limit` alone and has at most `limit` facts —
it is NOT `min(limit, #distinct facts available)` whenever extra unique
facts sit beyond position `limit`. -/
theorem c4_retrieval (e1 e2 : Engine) (q : String) (m : Nat)
    (rs rs' : List SearchResult)
    (h1 : e1 q (m * 2) = e2 q (m * 2)) (h2 : rs.take m = rs'.take m) :
    get_relevant_context e1 q m = get_relevant_context e2 q m ∧
    get_relevant_context (fun _ _ => Except.ok rs) q m =
      get_relevant_context (fun _ _ => Except.ok rs') q m ∧
    (dedupLoop (rs.take m) []).length ≤ m := by
  refine ⟨?_, grc_ok_determined_by_take q m rs rs' h2, ?_⟩
  · unfold get_relevant_context
    rw [h1]
  · exact (dedupLoop_length_le _ []).trans (List.length_take_le m rs)

/-- C4 witness. -/
theorem c4_witness :
    (noResults "refund" (3 * 2) = noResults "refund" (3 * 2) ∧
      sixResults.take 3 = sixResults.take 3) ∧
    (get_relevant_context noResults "refund" 3 =
        get_relevant_context noResults "refund" 3 ∧
      get_relevant_context (fun _ _ => Except.ok sixResults) "refund" 3 =
        get_relevant_context (fun _ _ => Except.ok sixResults) "refund" 3 ∧
      (dedupLoop (sixResults.take 3) []).length ≤ 3) :=
  ⟨⟨rfl, rfl⟩, c4_retrieval noResults noResults "refund" 3 sixResults
    sixResults rfl rfl⟩

/-- Helper for C7: the simulated assistant response is never empty. -/
theorem generate_response_ne_empty (u c : String) :
    generate_response u c ≠ "" := by
  intro hc
  have hdata : (generate_response u c).data = "".data :=
    congrArg String.data hc
  unfold generate_response at hdata
  rw [String.data_append, String.data_append] at hdata
  have hd2 : ("[Simulated response based on context about: ".data ++
      u.data) ++ "]".data = ([] : List Char) := hdata
  rcases List.append_eq_nil.mp hd2 with ⟨h3, h4⟩
  exact absurd h4 (by decide)

/-- C7 counterexample: `ContextGenerator.get_context_for_query` — one of
the retrieval operations the claim covers — has no `try`/`except`: an
engine failure propagates to the caller instead of being swallowed and
turned into an empty context. -/
theorem c7_counterexample :
    get_context_for_query failEngine "refund" 10 true = Except.error () :=
  rfl

/-- C7 (corrected): `MemoryChatbot.get_relevant_context` does swallow the
engine failure and return the empty context, and the enclosing chat turn
still completes, appending a non-empty assistant output; but
`ContextGenerator.get_context_for_query` propagates the failure rather
than returning an empty context. -/
theorem c7_best_effort_retrieval (q u : String) (s : ChatState) (l : Nat)
    (fm : Bool) :
    get_relevant_context failEngine q 5 = "" ∧
    (chat failEngine s u).current_session =
      s.current_session ++ [uMsg u, aMsg failEngine u] ∧
    (aMsg failEngine u).content ≠ "" ∧
    get_context_for_query failEngine q l fm = Except.error () := by
  refine ⟨rfl, chat_session_eq failEngine s u, ?_, rfl⟩
  exact generate_response_ne_empty u (get_relevant_context failEngine u 5)

/-- C8 counterexample: a result whose `created_at` key is present but maps
to the empty string gets no provenance line — the code tests truthiness,
not presence, so the claimed "provenance line exactly when `created_at` is
present" fails. -/
theorem c8_counterexample :
    (⟨some "fact", some ""⟩ : SearchResult).created_at.isSome = true ∧
    format_context_for_llm [⟨some "fact", some ""⟩] 5 =
      "Relevant conversation context:\n\n1. fact" := by
  exact ⟨rfl, by decide⟩

/-- C8 (corrected): the formatter returns the fixed sentinel on an empty
list; otherwise it renders exactly `min max_items (length of the list)`
1-based numbered blocks in input order, each holding the result's fact
text followed by an indented provenance line exactly when `created_at` is
present AND non-empty (truthy) — not merely present. -/
theorem c8_formatter (rs : List SearchResult) (n : Nat) (h : rs ≠ []) :
    format_context_for_llm [] n = "No relevant context found." ∧
    format_context_for_llm rs n =
      String.intercalate "\n"
        ("Relevant conversation context:" :: formatLoop 1 (rs.take n)) ∧
    formatLoop 1 (rs.take n) =
      (List.enumFrom 1 (rs.take n)).flatMap entryParts ∧
    (formatLoop 1 (rs.take n)).countP isNumberedLine = min n rs.length := by
  have hne : rs.isEmpty = false := by
    cases rs with
    | nil => exact absurd rfl h
    | cons a l => rfl
  refine ⟨rfl, ?_, formatLoop_eq_bind _ 1, ?_⟩
  · unfold format_context_for_llm
    rw [if_neg (by simp [hne])]
  · rw [countP_formatLoop]
    exact List.length_take n rs

/-- C8 witness. -/
theorem c8_witness :
    ([(⟨some "f", some "t"⟩ : SearchResult)] ≠ []) ∧
    (format_context_for_llm [] 2 = "No relevant context found." ∧
     format_context_for_llm [(⟨some "f", some "t"⟩ : SearchResult)] 2 =
       String.intercalate "\n"
         ("Relevant conversation context:" ::
           formatLoop 1 (([(⟨some "f", some "t"⟩ : SearchResult)]).take 2)) ∧
     formatLoop 1 (([(⟨some "f", some "t"⟩ : SearchResult)]).take 2) =
       (List.enumFrom 1
         (([(⟨some "f", some "t"⟩ : SearchResult)]).take 2)).flatMap
           entryParts ∧
     (formatLoop 1
         (([(⟨some "f", some "t"⟩ : SearchResult)]).take 2)).countP
           isNumberedLine =
       min 2 ([(⟨some "f", some "t"⟩ : SearchResult)]).length) :=
  ⟨by decide, c8_formatter [⟨some "f", some "t"⟩] 2 (by decide)⟩
